import Mathlib

/-!
Verification of the chiral-network local coordination layer
(`src-tauri/src/file_transfer.rs` and `src-tauri/src/relay_registry.rs`)
against its natural-language specification.

The Rust code is shallowly embedded: machine integers become `Nat` with
explicit saturation/modulus where the source saturates or wraps, fallible
operations return `Except`/`Option`, and the ambient effects (filesystem
writes, wall clock, HashMap iteration order) become explicit oracle
parameters.
-/

/-! ### Machine-integer helpers -/

/-- Largest value of a Rust `u64`. -/
def U64MAX : Nat := 2 ^ 64 - 1

/-- Rust `u64::saturating_add` on the `Nat` embedding. -/
def satAdd (a b : Nat) : Nat := min (a + b) U64MAX

/-- Rust `u64::saturating_mul` on the `Nat` embedding. -/
def satMul (a b : Nat) : Nat := min (a * b) U64MAX

theorem satAdd_of_le {a b : Nat} (h : a + b ≤ U64MAX) : satAdd a b = a + b := by
  simp [satAdd, Nat.min_eq_left h]

/-! ### `file_transfer.rs`: constants -/

/-- `const MAX_DOWNLOAD_ATTEMPTS: u32 = 3;` -/
def MAX_DOWNLOAD_ATTEMPTS : Nat := 3

/-- `const BASE_BACKOFF_MS: u64 = 250;` -/
def BASE_BACKOFF_MS : Nat := 250

/-- `const MAX_BACKOFF_MS: u64 = 1_500;` -/
def MAX_BACKOFF_MS : Nat := 1500

/-! ### `file_transfer.rs`: attempt snapshots and download metrics -/

/-- `enum AttemptStatus { Retrying, Success, Failed }` -/
inductive AttemptStatus where
  | retrying
  | success
  | failed
deriving DecidableEq, Repr

/-- `struct DownloadAttemptSnapshot` — one record per download attempt. -/
structure DownloadAttemptSnapshot where
  file_hash : String
  attempt : Nat
  max_attempts : Nat
  status : AttemptStatus
  duration_ms : Nat
  timestamp : Nat
deriving DecidableEq, Repr

/-- `struct DownloadMetrics` — cumulative `u64` counters (embedded as
saturating `Nat`s) plus the bounded recent-attempt history.  The front of
the list is the front of the `VecDeque`. -/
structure DownloadMetrics where
  total_success : Nat
  total_failures : Nat
  total_retries : Nat
  recent_attempts : List DownloadAttemptSnapshot
deriving DecidableEq, Repr

/-- The all-zero `DownloadMetrics::default()`. -/
def DownloadMetrics.default : DownloadMetrics :=
  { total_success := 0, total_failures := 0, total_retries := 0, recent_attempts := [] }

/-- The `while self.recent_attempts.len() > 20 { self.recent_attempts.pop_back(); }`
loop of `record_attempt`: drop from the back until at most 20 remain. -/
def trimBack (l : List DownloadAttemptSnapshot) : List DownloadAttemptSnapshot :=
  if l.length > 20 then trimBack l.dropLast else l
termination_by l.length
decreasing_by
  simp only [List.length_dropLast]
  omega

/-- `DownloadMetrics::record_attempt`: bump exactly one saturating counter
according to the status, push the snapshot at the front, evict from the
back while the history exceeds 20 entries. -/
def DownloadMetrics.record_attempt (m : DownloadMetrics) (s : DownloadAttemptSnapshot) :
    DownloadMetrics :=
  let m' :=
    match s.status with
    | AttemptStatus.retrying => { m with total_retries := satAdd m.total_retries 1 }
    | AttemptStatus.success => { m with total_success := satAdd m.total_success 1 }
    | AttemptStatus.failed => { m with total_failures := satAdd m.total_failures 1 }
  { m' with recent_attempts := trimBack (s :: m'.recent_attempts) }

/-! ### `file_transfer.rs`: backoff schedule -/

namespace FileTransferService

/-- `FileTransferService::backoff_delay` (result in milliseconds).
`1u64 << shift` is embedded as a left shift reduced mod `2^64`, and
`saturating_mul` as `satMul`. -/
def backoff_delay (attempt : Nat) : Nat :=
  if attempt ≤ 1 then 0
  else
    let shift := min (attempt - 1) 4
    let multiplier := (1 <<< shift) % 2 ^ 64
    let delay := satMul BASE_BACKOFF_MS multiplier
    min delay MAX_BACKOFF_MS

/-! ### `file_transfer.rs`: one download attempt

The Content Store (`stored_files : HashMap<String, (String, Vec<u8>)>`) is
embedded as a lookup function `String → Option (String × List Nat)`.  The
destination filesystem is embedded as a write oracle `writeErr`: the `n`-th
call of `write_output` (counted from 0 across the whole invocation) fails
with message `e` when `writeErr n = some e` and succeeds when
`writeErr n = none`. -/

/-- `FileTransferService::handle_download_file`: look the hash up in the
store (miss ⇒ error `"File not found locally"`); on a hit, perform one
write to the destination.  Returns the attempt result together with the
advanced write-call counter. -/
def handle_download_file (file_hash : String)
    (store : String → Option (String × List Nat)) (writeErr : Nat → Option String)
    (w : Nat) : Except String Unit × Nat :=
  match store file_hash with
  | none => (Except.error "File not found locally", w)
  | some _ =>
    match writeErr w with
    | some e => (Except.error e, w + 1)
    | none => (Except.ok (), w + 1)

/-- The `while attempt < MAX_DOWNLOAD_ATTEMPTS` loop of
`download_with_retries`.  `fuel` is `MAX_DOWNLOAD_ATTEMPTS - attempt`, the
number of loop iterations still permitted by the guard; `clock` supplies
each attempt's observed `(duration_ms, timestamp)`; `acc` accumulates the
emitted snapshots (newest first, reversed into emission order on return).
Returns the result, the emitted snapshots in emission order, and the final
metrics. -/
def download_go (file_hash : String) (store : String → Option (String × List Nat))
    (writeErr : Nat → Option String) (clock : Nat → Nat × Nat) :
    Nat → Nat → Nat → Option String → DownloadMetrics → List DownloadAttemptSnapshot →
    Except String Unit × List DownloadAttemptSnapshot × DownloadMetrics
  | 0, _, _, lastError, m, acc =>
      (Except.error (lastError.getD "Download failed"), acc.reverse, m)
  | fuel + 1, attempt, w, _, m, acc =>
      let attempt' := attempt + 1
      let dur := (clock attempt').1
      let ts := (clock attempt').2
      match handle_download_file file_hash store writeErr w with
      | (Except.ok _, _) =>
        let snap : DownloadAttemptSnapshot :=
          ⟨file_hash, attempt', MAX_DOWNLOAD_ATTEMPTS, AttemptStatus.success, dur, ts⟩
        (Except.ok (), (snap :: acc).reverse, m.record_attempt snap)
      | (Except.error err, w') =>
        let status :=
          if MAX_DOWNLOAD_ATTEMPTS ≤ attempt' then AttemptStatus.failed
          else AttemptStatus.retrying
        let snap : DownloadAttemptSnapshot :=
          ⟨file_hash, attempt', MAX_DOWNLOAD_ATTEMPTS, status, dur, ts⟩
        let m' := m.record_attempt snap
        if MAX_DOWNLOAD_ATTEMPTS ≤ attempt' then (Except.error err, (snap :: acc).reverse, m')
        else download_go file_hash store writeErr clock fuel attempt' w' (some err) m' (snap :: acc)

/-- `FileTransferService::download_with_retries`: run the attempt loop from
`attempt = 0` with fresh write-call counter and no recorded error, against
the given metrics state. -/
def download_with_retries (file_hash : String)
    (store : String → Option (String × List Nat)) (writeErr : Nat → Option String)
    (clock : Nat → Nat × Nat) (m : DownloadMetrics) :
    Except String Unit × List DownloadAttemptSnapshot × DownloadMetrics :=
  download_go file_hash store writeErr clock MAX_DOWNLOAD_ATTEMPTS 0 0 none m []

end FileTransferService

/-! ### SHA-256 (the `sha2` crate used by `calculate_file_hash`)

Bytes are `Nat`s below 256, 32-bit words are `Nat`s reduced mod `2^32`.
This is the FIPS 180-4 algorithm as computed by `sha2::Sha256`. -/

namespace SHA256

/-- `2^32`, the modulus of 32-bit word arithmetic. -/
def U32MOD : Nat := 2 ^ 32

/-- Rotate a 32-bit word right by `n` bits. -/
def rotr (n x : Nat) : Nat := ((x >>> n) ||| (x <<< (32 - n))) % U32MOD

/-- The 64 round constants. -/
def K : List Nat :=
  [1116352408, 1899447441, 3049323471, 3921009573, 961987163,
   1508970993, 2453635748, 2870763221, 3624381080, 310598401,
   607225278, 1426881987, 1925078388, 2162078206, 2614888103,
   3248222580, 3835390401, 4022224774, 264347078, 604807628,
   770255983, 1249150122, 1555081692, 1996064986, 2554220882,
   2821834349, 2952996808, 3210313671, 3336571891, 3584528711,
   113926993, 338241895, 666307205, 773529912, 1294757372,
   1396182291, 1695183700, 1986661051, 2177026350, 2456956037,
   2730485921, 2820302411, 3259730800, 3345764771, 3516065817,
   3600352804, 4094571909, 275423344, 430227734, 506948616,
   659060556, 883997877, 958139571, 1322822218, 1537002063,
   1747873779, 1955562222, 2024104815, 2227730452, 2361852424,
   2428436474, 2756734187, 3204031479, 3329325298]

/-- The initial hash state. -/
def H0 : List Nat :=
  [1779033703, 3144134277, 1013904242, 2773480762, 1359893119,
   2600822924, 528734635, 1541459225]

/-- Big-endian serialization of `x` into `n` bytes. -/
def toBytesBE (n x : Nat) : List Nat :=
  (List.range n).map fun i => (x >>> (8 * (n - 1 - i))) % 256

/-- FIPS 180-4 padding: append `0x80`, zeros to 56 mod 64, then the
64-bit big-endian bit length. -/
def pad (msg : List Nat) : List Nat :=
  let bitlen := 8 * msg.length
  let r := (msg.length + 1) % 64
  let z := (120 - r) % 64
  msg ++ 0x80 :: List.replicate z 0 ++ toBytesBE 8 bitlen

/-- Split a byte list into 64-byte blocks. -/
def blocksOf : List Nat → List (List Nat)
  | [] => []
  | b :: bs => ((b :: bs).take 64) :: blocksOf ((b :: bs).drop 64)
termination_by l => l.length
decreasing_by
  simp only [List.length_drop, List.length_cons]
  omega

/-- Combine 4 consecutive bytes (big-endian) into 32-bit words. -/
def toWords : List Nat → List Nat
  | b0 :: b1 :: b2 :: b3 :: rest =>
      (((b0 * 256 + b1) * 256 + b2) * 256 + b3) :: toWords rest
  | _ => []

def smallSigma0 (x : Nat) : Nat := rotr 7 x ^^^ rotr 18 x ^^^ (x >>> 3)

def smallSigma1 (x : Nat) : Nat := rotr 17 x ^^^ rotr 19 x ^^^ (x >>> 10)

def bigSigma0 (x : Nat) : Nat := rotr 2 x ^^^ rotr 13 x ^^^ rotr 22 x

def bigSigma1 (x : Nat) : Nat := rotr 6 x ^^^ rotr 11 x ^^^ rotr 25 x

def ch (x y z : Nat) : Nat := (x &&& y) ^^^ ((x ^^^ 0xffffffff) &&& z)

def maj (x y z : Nat) : Nat := (x &&& y) ^^^ (x &&& z) ^^^ (y &&& z)

/-- Append the next entry of the message schedule. -/
def extendStep (w : List Nat) : List Nat :=
  w ++ [(smallSigma1 (w.getD (w.length - 2) 0) + w.getD (w.length - 7) 0 +
         smallSigma0 (w.getD (w.length - 15) 0) + w.getD (w.length - 16) 0) % U32MOD]

/-- One compression round on the 8-word working state. -/
def round (state : List Nat) (kw : Nat × Nat) : List Nat :=
  match state with
  | [a, b, c, d, e, f, g, h] =>
      let t1 := (h + bigSigma1 e + ch e f g + kw.1 + kw.2) % U32MOD
      let t2 := (bigSigma0 a + maj a b c) % U32MOD
      [(t1 + t2) % U32MOD, a, b, c, (d + t1) % U32MOD, e, f, g]
  | s => s

/-- Process one 64-byte block into the running 8-word hash state. -/
def processBlock (hs : List Nat) (block : List Nat) : List Nat :=
  let w := extendStep^[48] (toWords block)
  let final := (K.zip w).foldl round hs
  (hs.zip final).map fun p => (p.1 + p.2) % U32MOD

/-- SHA-256 digest of a byte sequence, as 32 bytes. -/
def sha256 (msg : List Nat) : List Nat :=
  ((blocksOf (pad msg)).foldl processBlock H0).flatMap (toBytesBE 4)

/-- Lowercase hexadecimal digit. -/
def hexChar (n : Nat) : Char :=
  if n < 10 then Char.ofNat (48 + n) else Char.ofNat (87 + n)

/-- Two lowercase hex characters for one byte, as printed by `{:x}`. -/
def byteHex (b : Nat) : List Char := [hexChar (b / 16), hexChar (b % 16)]

end SHA256

namespace FileTransferService

/-- `FileTransferService::calculate_file_hash`: SHA-256 digest of the data,
rendered as lowercase hex via `format!("{:x}", hasher.finalize())`. -/
def calculate_file_hash (data : List Nat) : String :=
  String.mk ((SHA256.sha256 data).flatMap SHA256.byteHex)

end FileTransferService

/-! ### HashMap embedding

A Rust `HashMap` is embedded as an association list with at most one entry
per key; `insert` overwrites in place or appends.  Iteration order of the
real `HashMap` is unspecified (randomized hashing), so no theorem below
reads any meaning into the order of this list except where a function's
input order is made an explicit parameter. -/

/-- `HashMap::insert` on the association-list embedding. -/
def AssocMap.insert {α : Type} (k : String) (v : α) (m : List (String × α)) :
    List (String × α) :=
  if m.any (fun p => p.1 == k) then
    m.map fun p => if p.1 == k then (k, v) else p
  else
    m ++ [(k, v)]

/-! ### `file_transfer.rs`: Content Store write operations -/

/-- The two operations that insert into the Content Store
(`stored_files : HashMap<String, (String, Vec<u8>)>`). -/
inductive StoreOp where
  /-- `handle_upload_file` with a successful read of `file_data`: the key is
  computed from the bytes by `calculate_file_hash`.  (A failed read returns
  before any insertion, so it is the identity on the store and is not
  modeled as an operation.) -/
  | upload_file (file_data : List Nat) (file_name : String)
  /-- `store_file_data`: inserts under the caller-supplied `file_hash`. -/
  | store_file_data (file_hash : String) (file_name : String) (file_data : List Nat)

/-- Apply one Content Store write operation. -/
def applyStoreOp (m : List (String × (String × List Nat))) :
    StoreOp → List (String × (String × List Nat))
  | StoreOp.upload_file data name =>
      AssocMap.insert (FileTransferService.calculate_file_hash data) (name, data) m
  | StoreOp.store_file_data h name data =>
      AssocMap.insert h (name, data) m

/-- Apply a sequence of Content Store write operations. -/
def applyStoreOps (m : List (String × (String × List Nat))) (ops : List StoreOp) :
    List (String × (String × List Nat)) :=
  ops.foldl applyStoreOp m

/-! ### An `f32` model

`health_score` is a Rust `f32`.  Only IEEE-754 comparisons and `clamp`
are applied to it, so finite values are carried as exact rationals and the
special values NaN and ±∞ as dedicated constructors; IEEE comparison
semantics (NaN compares false with everything) are reproduced exactly. -/

inductive F32 where
  | nan
  | ninf
  | val (q : ℚ)
  | pinf
deriving DecidableEq, Repr

namespace F32

/-- IEEE-754 `<` on `f32` (false whenever either side is NaN). -/
def lt : F32 → F32 → Bool
  | nan, _ => false
  | _, nan => false
  | ninf, ninf => false
  | ninf, _ => true
  | _, ninf => false
  | pinf, _ => false
  | val _, pinf => true
  | val a, val b => decide (a < b)

/-- IEEE-754 `>` on `f32`. -/
def gt (a b : F32) : Bool := lt b a

/-- IEEE-754 `==` on `f32` (false whenever either side is NaN). -/
def ieeeEq : F32 → F32 → Bool
  | nan, _ => false
  | _, nan => false
  | ninf, ninf => true
  | pinf, pinf => true
  | val a, val b => decide (a = b)
  | _, _ => false

/-- IEEE-754 `<=` on `f32` (false whenever either side is NaN). -/
def le (a b : F32) : Bool := lt a b || ieeeEq a b

/-- `f32::partial_cmp`: `none` exactly when a NaN is involved. -/
def cmp : F32 → F32 → Option Ordering
  | nan, _ => none
  | _, nan => none
  | a, b => some (if lt a b then Ordering.lt else if lt b a then Ordering.gt else Ordering.eq)

/-- `f32::clamp(self, min, max)` (with `min ≤ max`): raise to `min`, lower
to `max`; a NaN input propagates unchanged. -/
def clamp (x mn mx : F32) : F32 :=
  let x1 := if lt x mn then mn else x
  if gt x1 mx then mx else x1

end F32

/-! ### `relay_registry.rs` -/

/-- `struct RelayInfo`. -/
structure RelayInfo where
  peer_id : String
  addrs : List String
  /-- named `alias` in the source; `alias` is reserved in Lean -/
  alias_name : Option String
  last_seen : Nat
  health_score : F32
deriving DecidableEq, Repr

namespace RelayRegistry

/-- `RelayRegistry::register`: upsert under `peer_id`, with
`last_seen = now` (the wall clock is the explicit `now` parameter) and the
health score passed through `health_score.clamp(0.0, 1.0)`. -/
def register (peer_id : String) (addrs : List String) (alias_name : Option String)
    (health_score : F32) (now : Nat) (m : List (String × RelayInfo)) :
    List (String × RelayInfo) :=
  AssocMap.insert peer_id
    { peer_id := peer_id, addrs := addrs, alias_name := alias_name, last_seen := now,
      health_score := F32.clamp health_score (F32.val 0) (F32.val 1) } m

/-- `RelayRegistry::prune_stale`: retain entries whose saturating age
`now - last_seen` does not exceed `max_age_secs`; also return the number
removed (`before_count - entries.len()`). -/
def prune_stale (now max_age_secs : Nat) (m : List (String × RelayInfo)) :
    List (String × RelayInfo) × Nat :=
  let kept := m.filter fun p => !decide (max_age_secs < now - p.2.last_seen)
  (kept, m.length - kept.length)

/-- `RelayRegistry::remove`: delete the entry; report whether it existed. -/
def remove (peer_id : String) (m : List (String × RelayInfo)) :
    List (String × RelayInfo) × Bool :=
  (m.filter fun p => !(p.1 == peer_id), m.any fun p => p.1 == peer_id)

/-- The comparator passed to `sort_by` in `RelayRegistry::list`:
`b.health_score.partial_cmp(&a.health_score).unwrap_or(Equal)`. -/
def relayCmp (a b : RelayInfo) : Ordering :=
  (F32.cmp b.health_score a.health_score).getD Ordering.eq

/-- The "less or equal" relation induced by `relayCmp`, under which Rust's
stable `sort_by` sorts ascending (hence descending by health score). -/
def relayLE (a b : RelayInfo) : Bool := !(relayCmp a b == Ordering.gt)

/-- `RelayRegistry::list`: collect the map's values in its (unspecified)
iteration order — made an explicit parameter `iter` here — and stable-sort
them with `relayCmp`. -/
def list (iter : List RelayInfo) : List RelayInfo :=
  iter.mergeSort relayLE

end RelayRegistry

/-- The mutating operations of the Relay Directory. -/
inductive RegistryOp where
  | register (peer_id : String) (addrs : List String) (alias_name : Option String)
      (health_score : F32) (now : Nat)
  | remove (peer_id : String)
  | prune_stale (now max_age_secs : Nat)
  | clear

/-- Apply one Relay Directory mutation. -/
def applyRegistryOp (m : List (String × RelayInfo)) : RegistryOp → List (String × RelayInfo)
  | RegistryOp.register pid addrs al hs now => RelayRegistry.register pid addrs al hs now m
  | RegistryOp.remove pid => (RelayRegistry.remove pid m).1
  | RegistryOp.prune_stale now maxAge => (RelayRegistry.prune_stale now maxAge m).1
  | RegistryOp.clear => []

/-- Apply a sequence of Relay Directory mutations. -/
def applyRegistryOps (m : List (String × RelayInfo)) (ops : List RegistryOp) :
    List (String × RelayInfo) :=
  ops.foldl applyRegistryOp m

/-! ## Theorems -/

/-- Closed form of the backoff schedule. -/
theorem backoff_delay_eq (attempt : Nat) :
    FileTransferService.backoff_delay attempt =
      if attempt ≤ 1 then 0
      else min (BASE_BACKOFF_MS * 2 ^ min (attempt - 1) 4) MAX_BACKOFF_MS := by
  unfold FileTransferService.backoff_delay
  split
  · rfl
  · have h4 : min (attempt - 1) 4 ≤ 4 := Nat.min_le_right _ _
    have hp : 2 ^ min (attempt - 1) 4 ≤ 16 := by
      calc 2 ^ min (attempt - 1) 4 ≤ 2 ^ 4 := Nat.pow_le_pow_right (by norm_num) h4
        _ = 16 := by norm_num
    have hsh : (1 <<< min (attempt - 1) 4) % 2 ^ 64 = 2 ^ min (attempt - 1) 4 := by
      rw [Nat.shiftLeft_eq, one_mul, Nat.mod_eq_of_lt (by omega)]
    have hmul : satMul BASE_BACKOFF_MS (2 ^ min (attempt - 1) 4)
        = BASE_BACKOFF_MS * 2 ^ min (attempt - 1) 4 := by
      have : BASE_BACKOFF_MS * 2 ^ min (attempt - 1) 4 ≤ U64MAX := by
        have : BASE_BACKOFF_MS * 2 ^ min (attempt - 1) 4 ≤ 250 * 16 :=
          Nat.mul_le_mul_left _ hp
        have hU : (4000 : Nat) ≤ U64MAX := by norm_num [U64MAX]
        omega
      simp [satMul, Nat.min_eq_left this]
    simp only [hsh, hmul]

/-- Fully evaluated closed form of the backoff schedule. -/
theorem backoff_delay_cases (attempt : Nat) :
    FileTransferService.backoff_delay attempt =
      if attempt ≤ 1 then 0
      else if attempt = 2 then 500
      else if attempt = 3 then 1000
      else 1500 := by
  rw [backoff_delay_eq]
  rcases Nat.lt_or_ge attempt 5 with h5 | h5
  · interval_cases attempt <;> simp [BASE_BACKOFF_MS, MAX_BACKOFF_MS]
  · have h1 : ¬ attempt ≤ 1 := by omega
    have hm : min (attempt - 1) 4 = 4 := by omega
    simp only [h1, if_false, hm, BASE_BACKOFF_MS, MAX_BACKOFF_MS]
    have : ¬ attempt = 2 := by omega
    have : ¬ attempt = 3 := by omega
    simp_all

/-- Claim C2 counterexample: the claim asserts `backoff_delay(2) = 250 ms`
and `backoff_delay(3) = 500 ms`, but the code (shift `min(attempt-1, 4)`,
so multiplier `2^(attempt-1)` up to the cap — exactly the claim's own
formula) yields 500 ms at attempt 2 and 1000 ms at attempt 3. -/
theorem backoff_delay_two_ne_claimed :
    FileTransferService.backoff_delay 2 = 500 ∧ FileTransferService.backoff_delay 2 ≠ 250 ∧
    FileTransferService.backoff_delay 3 = 1000 ∧ FileTransferService.backoff_delay 3 ≠ 500 := by
  refine ⟨by decide, by decide, by decide, by decide⟩

/-- Claim C2 (amended): the backoff schedule satisfies
`backoff_delay(1) = 0`, `backoff_delay(2) = 500`, `backoff_delay(3) = 1000`
and `backoff_delay(6) = 1500` milliseconds (capped at `MAX_BACKOFF_MS`),
per the formula `delay = BASE_BACKOFF_MS * 2^min(attempt-1, 4)` capped at
`MAX_BACKOFF_MS` for attempts ≥ 2 (attempt 1 → 0 ms), with
`BASE_BACKOFF_MS = 250` and `MAX_BACKOFF_MS = 1500`. -/
theorem backoff_delay_schedule :
    FileTransferService.backoff_delay 1 = 0 ∧
    FileTransferService.backoff_delay 2 = 500 ∧
    FileTransferService.backoff_delay 3 = 1000 ∧
    FileTransferService.backoff_delay 6 = 1500 ∧
    ∀ attempt : Nat,
      FileTransferService.backoff_delay attempt =
        if attempt ≤ 1 then 0
        else min (BASE_BACKOFF_MS * 2 ^ min (attempt - 1) 4) MAX_BACKOFF_MS := by
  refine ⟨by decide, by decide, by decide, by decide, backoff_delay_eq⟩

/-- Claim C10: over the whole `u32` range of `attempt`, `backoff_delay` is
computed without arithmetic overflow (the shift amount stays below 64 and
the multiplication stays below the `u64` bound, so the saturating
multiplication never saturates), is bounded by `MAX_BACKOFF_MS = 1500`,
and is monotone non-decreasing. -/
theorem backoff_delay_bounded_monotone (a b : Nat)
    (ha : a < 2 ^ 32) (hb : b < 2 ^ 32) (hab : a ≤ b) :
    min (a - 1) 4 < 64 ∧
    BASE_BACKOFF_MS * 2 ^ min (a - 1) 4 ≤ U64MAX ∧
    FileTransferService.backoff_delay a ≤ MAX_BACKOFF_MS ∧
    FileTransferService.backoff_delay a ≤ FileTransferService.backoff_delay b := by
  have hmul : ∀ n : Nat, BASE_BACKOFF_MS * 2 ^ min (n - 1) 4 ≤ U64MAX := by
    intro n
    have h4 : min (n - 1) 4 ≤ 4 := Nat.min_le_right _ _
    have hp : 2 ^ min (n - 1) 4 ≤ 16 := by
      calc 2 ^ min (n - 1) 4 ≤ 2 ^ 4 := Nat.pow_le_pow_right (by norm_num) h4
        _ = 16 := by norm_num
    have : BASE_BACKOFF_MS * 2 ^ min (n - 1) 4 ≤ 250 * 16 := Nat.mul_le_mul_left _ hp
    have hU : (4000 : Nat) ≤ U64MAX := by norm_num [U64MAX]
    omega
  refine ⟨by omega, hmul a, ?_, ?_⟩
  · rw [backoff_delay_cases]
    split_ifs <;> norm_num [MAX_BACKOFF_MS]
  · rw [backoff_delay_cases, backoff_delay_cases]
    split_ifs <;> omega

/-- Witness for claim C10 at concrete attempts 3 ≤ 7. -/
theorem backoff_delay_bounded_monotone_witness :
    min (3 - 1) 4 < 64 ∧
    BASE_BACKOFF_MS * 2 ^ min (3 - 1) 4 ≤ U64MAX ∧
    FileTransferService.backoff_delay 3 ≤ MAX_BACKOFF_MS ∧
    FileTransferService.backoff_delay 3 ≤ FileTransferService.backoff_delay 7 :=
  backoff_delay_bounded_monotone 3 7 (by norm_num) (by norm_num) (by norm_num)

/-- The back-trimming loop keeps exactly the first 20 entries. -/
theorem trimBack_eq_take (l : List DownloadAttemptSnapshot) : trimBack l = l.take 20 := by
  rw [trimBack]
  split
  · rename_i h
    rw [trimBack_eq_take l.dropLast, List.dropLast_eq_take, List.take_take]
    congr 1
    omega
  · rename_i h
    rw [List.take_of_length_le (by omega)]
termination_by l.length
decreasing_by
  simp only [List.length_dropLast]
  omega

/-- Truncating the tail of an append before taking changes nothing. -/
theorem take_append_take (xs ys : List DownloadAttemptSnapshot) (n : Nat) :
    (xs ++ ys.take n).take n = (xs ++ ys).take n := by
  rw [List.take_append_eq_append_take, List.take_append_eq_append_take, List.take_take,
    Nat.min_eq_left (Nat.sub_le _ _)]

/-- `record_attempt` never touches the history through the counter update,
so a fold of `record_attempt` keeps the newest 20 snapshots, newest
first. -/
theorem record_fold_recent (snaps : List DownloadAttemptSnapshot) (m : DownloadMetrics)
    (h : m.recent_attempts.length ≤ 20) :
    (snaps.foldl DownloadMetrics.record_attempt m).recent_attempts
      = (snaps.reverse ++ m.recent_attempts).take 20 := by
  induction snaps generalizing m with
  | nil => simp [List.take_of_length_le h]
  | cons s rest ih =>
    have hrec : (DownloadMetrics.record_attempt m s).recent_attempts
        = (s :: m.recent_attempts).take 20 := by
      unfold DownloadMetrics.record_attempt
      rcases s.status <;> simp [trimBack_eq_take]
    have hlen : (DownloadMetrics.record_attempt m s).recent_attempts.length ≤ 20 := by
      rw [hrec]
      simp
    rw [List.foldl_cons, ih _ hlen, hrec, List.reverse_cons, take_append_take,
      List.append_assoc, List.singleton_append]

/-- Claim C4: after any sequence of `record_attempt` calls on the initial
metrics, the recent-attempt history holds the most recent at-most-20
snapshots: its length never exceeds 20, it equals the reversed record
sequence truncated to 20 (so insertion is at the head and eviction removes
the oldest entries from the tail), and index 0 is the most recently
recorded snapshot. -/
theorem recent_attempts_bounded (snaps : List DownloadAttemptSnapshot) :
    (snaps.foldl DownloadMetrics.record_attempt DownloadMetrics.default).recent_attempts.length
        ≤ 20 ∧
    (snaps.foldl DownloadMetrics.record_attempt DownloadMetrics.default).recent_attempts
        = snaps.reverse.take 20 ∧
    (snaps.foldl DownloadMetrics.record_attempt DownloadMetrics.default).recent_attempts.head?
        = snaps.getLast? := by
  have hrec : (snaps.foldl DownloadMetrics.record_attempt DownloadMetrics.default).recent_attempts
      = snaps.reverse.take 20 := by
    rw [record_fold_recent snaps DownloadMetrics.default (by simp [DownloadMetrics.default])]
    simp [DownloadMetrics.default]
  refine ⟨?_, hrec, ?_⟩
  · rw [hrec]
    simp
  · rw [hrec]
    rcases hs : snaps.reverse with _ | ⟨a, l⟩
    · have : snaps = [] := by simpa using congrArg List.reverse hs
      simp [this]
    · rw [← List.head?_reverse, hs]
      simp

/-- Claim C8: `prune_stale(now, max_age_secs)` keeps exactly the entries
whose saturating age `now - last_seen` is at most `max_age_secs` (leaving
them unchanged, in place), returns the number of entries it removed, and
never removes an entry whose `last_seen` lies in the future (saturating
subtraction makes its age 0). -/
theorem prune_stale_spec (now max_age_secs : Nat) (m : List (String × RelayInfo)) :
    (RelayRegistry.prune_stale now max_age_secs m).1
        = m.filter (fun p => decide (now - p.2.last_seen ≤ max_age_secs)) ∧
    (RelayRegistry.prune_stale now max_age_secs m).2
        = (m.filter (fun p => decide (max_age_secs < now - p.2.last_seen))).length ∧
    ∀ p ∈ m, now < p.2.last_seen →
      p ∈ (RelayRegistry.prune_stale now max_age_secs m).1 := by
  have hkeep : (RelayRegistry.prune_stale now max_age_secs m).1
      = m.filter (fun p => decide (now - p.2.last_seen ≤ max_age_secs)) := by
    unfold RelayRegistry.prune_stale
    refine List.filter_congr ?_
    intro p _
    rcases Nat.lt_or_ge max_age_secs (now - p.2.last_seen) with h | h
    · simp [h, Nat.not_le.mpr h]
    · simp [Nat.not_lt.mpr h, Nat.le_of_lt_succ, h]
  refine ⟨hkeep, ?_, ?_⟩
  · show m.length - (m.filter fun p => !decide (max_age_secs < now - p.2.last_seen)).length
        = (m.filter fun p => decide (max_age_secs < now - p.2.last_seen)).length
    have hsplit := List.length_eq_length_filter_add
      (l := m) (fun p : String × RelayInfo => decide (max_age_secs < now - p.2.last_seen))
    omega
  · intro p hp hfut
    rw [hkeep]
    refine List.mem_filter.mpr ⟨hp, ?_⟩
    have : now - p.2.last_seen = 0 := Nat.sub_eq_zero_of_le (Nat.le_of_lt hfut)
    simp [this]

/-- Witness for claim C8, on the spec's own example: `now = 10000`,
`max_age = 300`, one entry last seen at 9000 (pruned), one at 9800 (kept),
and one dated in the future at 10050 (kept). -/
theorem prune_stale_spec_witness :
    (RelayRegistry.prune_stale 10000 300
        [("a", ⟨"a", [], none, 9000, F32.val 1⟩), ("b", ⟨"b", [], none, 9800, F32.val 1⟩),
         ("c", ⟨"c", [], none, 10050, F32.val 1⟩)]).1
      = [("b", ⟨"b", [], none, 9800, F32.val 1⟩), ("c", ⟨"c", [], none, 10050, F32.val 1⟩)] ∧
    (RelayRegistry.prune_stale 10000 300
        [("a", ⟨"a", [], none, 9000, F32.val 1⟩), ("b", ⟨"b", [], none, 9800, F32.val 1⟩),
         ("c", ⟨"c", [], none, 10050, F32.val 1⟩)]).2 = 1 ∧
    ("c", (⟨"c", [], none, 10050, F32.val 1⟩ : RelayInfo)) ∈
      (RelayRegistry.prune_stale 10000 300
        [("a", ⟨"a", [], none, 9000, F32.val 1⟩), ("b", ⟨"b", [], none, 9800, F32.val 1⟩),
         ("c", ⟨"c", [], none, 10050, F32.val 1⟩)]).1 := by
  obtain ⟨h1, h2, h3⟩ := prune_stale_spec 10000 300
    [("a", ⟨"a", [], none, 9000, F32.val 1⟩), ("b", ⟨"b", [], none, 9800, F32.val 1⟩),
     ("c", ⟨"c", [], none, 10050, F32.val 1⟩)]
  refine ⟨?_, ?_, ?_⟩
  · rw [h1]
    decide
  · rw [h2]
    decide
  · exact h3 _ (by decide) (by decide)

/-- A compression round preserves the working-state width. -/
theorem round_length (s : List Nat) (kw : Nat × Nat) : (SHA256.round s kw).length = s.length := by
  unfold SHA256.round
  split
  · simp
  · rfl

/-- Folding compression rounds preserves the working-state width. -/
theorem foldl_round_length (l : List (Nat × Nat)) (s : List Nat) :
    (l.foldl SHA256.round s).length = s.length := by
  induction l generalizing s with
  | nil => rfl
  | cons kw rest ih => rw [List.foldl_cons, ih, round_length]

/-- Processing a block preserves the 8-word hash-state width. -/
theorem processBlock_length (hs block : List Nat) :
    (SHA256.processBlock hs block).length = hs.length := by
  unfold SHA256.processBlock
  simp [foldl_round_length]

/-- Big-endian serialization yields exactly `n` bytes. -/
theorem toBytesBE_length (n x : Nat) : (SHA256.toBytesBE n x).length = n := by
  simp [SHA256.toBytesBE]

/-- A SHA-256 digest has exactly 32 bytes. -/
theorem sha256_length (msg : List Nat) : (SHA256.sha256 msg).length = 32 := by
  unfold SHA256.sha256
  have hstate : ∀ (bs : List (List Nat)) (hs : List Nat),
      (bs.foldl SHA256.processBlock hs).length = hs.length := by
    intro bs
    induction bs with
    | nil => intro hs; rfl
    | cons b rest ih =>
      intro hs
      rw [List.foldl_cons, ih, processBlock_length]
  have hflat : ∀ ws : List Nat, (ws.flatMap (SHA256.toBytesBE 4)).length = 4 * ws.length := by
    intro ws
    induction ws with
    | nil => rfl
    | cons a rest ih => simp [ih, toBytesBE_length, Nat.mul_succ, Nat.add_comm]
  rw [hflat, hstate]
  rfl

/-- `calculate_file_hash` always renders 64 hex characters. -/
theorem calculate_file_hash_length (data : List Nat) :
    (FileTransferService.calculate_file_hash data).length = 64 := by
  have hflat : ∀ bs : List Nat, (bs.flatMap SHA256.byteHex).length = 2 * bs.length := by
    intro bs
    induction bs with
    | nil => rfl
    | cons a rest ih =>
      simp [ih, SHA256.byteHex]
      omega
  show (String.mk ((SHA256.sha256 data).flatMap SHA256.byteHex)).length = 64
  simp only [String.length, hflat, sha256_length]

/-- Membership after a `HashMap` insert: the new binding or an old one. -/
theorem AssocMap.mem_insert {α : Type} {k : String} {v : α} {m : List (String × α)}
    {p : String × α} (hp : p ∈ AssocMap.insert k v m) : p = (k, v) ∨ p ∈ m := by
  unfold AssocMap.insert at hp
  split at hp
  · obtain ⟨q, hq, he⟩ := List.mem_map.mp hp
    by_cases hk : q.1 == k
    · rw [if_pos hk] at he
      exact Or.inl he.symm
    · rw [if_neg hk] at he
      exact Or.inr (he ▸ hq)
  · rcases List.mem_append.mp hp with h | h
    · exact Or.inr h
    · exact Or.inl (List.mem_singleton.mp h)

/-- Claim C5 counterexample: `store_file_data` inserts the caller-supplied
key without checking it, so a single such write leaves the store with an
entry whose key (`"deadbeef"`, 8 characters) cannot equal the 64-character
SHA-256 lowercase-hex digest of its bytes. -/
theorem store_file_data_key_unchecked :
    applyStoreOps [] [StoreOp.store_file_data "deadbeef" "greeting.txt" [104, 105]]
        = [("deadbeef", ("greeting.txt", [104, 105]))] ∧
    "deadbeef" ≠ FileTransferService.calculate_file_hash [104, 105] := by
  constructor
  · rfl
  · intro h
    have hlen := congrArg String.length h
    rw [calculate_file_hash_length] at hlen
    exact absurd hlen (by decide)

/-- Claim C5 (amended): the key–digest invariant is enforced at write time
by `handle_upload_file`, which computes the key from the bytes; after any
sequence of uploads every entry's key is the SHA-256 lowercase-hex digest
of its bytes.  (`store_file_data` inserts a caller-supplied key unchecked,
so sequences containing it are excluded.) -/
theorem upload_enforces_hash (ops : List StoreOp)
    (hup : ∀ op ∈ ops, ∃ data name, op = StoreOp.upload_file data name) :
    ∀ p ∈ applyStoreOps [] ops, p.1 = FileTransferService.calculate_file_hash p.2.2 := by
  suffices h : ∀ (m : List (String × (String × List Nat))),
      (∀ p ∈ m, p.1 = FileTransferService.calculate_file_hash p.2.2) →
      ∀ p ∈ applyStoreOps m ops, p.1 = FileTransferService.calculate_file_hash p.2.2 by
    exact h [] (by intro p hp; cases hp)
  induction ops with
  | nil => intro m hm p hp; exact hm p hp
  | cons op rest ih =>
    intro m hm p hp
    obtain ⟨data, name, rfl⟩ := hup op (List.mem_cons_self _ _)
    refine ih (fun o ho => hup o (List.mem_cons_of_mem _ ho)) _ ?_ p hp
    intro q hq
    rcases AssocMap.mem_insert hq with h | h
    · rw [h]
    · exact hm q h

/-- Witness for claim C5 (amended) on a one-upload sequence. -/
theorem upload_enforces_hash_witness :
    (FileTransferService.calculate_file_hash [104, 105], ("greeting.txt", [104, 105])).1
      = FileTransferService.calculate_file_hash
          (FileTransferService.calculate_file_hash [104, 105],
            ("greeting.txt", [104, 105])).2.2 :=
  upload_enforces_hash [StoreOp.upload_file [104, 105] "greeting.txt"]
    (by
      intro op hop
      rw [List.mem_singleton.mp hop]
      exact ⟨[104, 105], "greeting.txt", rfl⟩)
    _ (List.mem_singleton_self _)

/-- Clamping any non-NaN score into `[0, 1]` lands in `[0, 1]` under IEEE
comparisons. -/
theorem clamp01_of_ne_nan (s : F32) (h : s ≠ F32.nan) :
    F32.le (F32.val 0) (F32.clamp s (F32.val 0) (F32.val 1)) = true ∧
    F32.le (F32.clamp s (F32.val 0) (F32.val 1)) (F32.val 1) = true := by
  rcases s with _ | _ | q | _
  · exact absurd rfl h
  · exact ⟨by decide, by decide⟩
  · by_cases h0 : q < 0
    · have hc : F32.clamp (F32.val q) (F32.val 0) (F32.val 1) = F32.val 0 := by
        simp [F32.clamp, F32.lt, F32.gt, h0]
      rw [hc]
      exact ⟨by decide, by decide⟩
    · by_cases h1 : 1 < q
      · have hc : F32.clamp (F32.val q) (F32.val 0) (F32.val 1) = F32.val 1 := by
          simp [F32.clamp, F32.lt, F32.gt, h0, h1]
        rw [hc]
        exact ⟨by decide, by decide⟩
      · have hc : F32.clamp (F32.val q) (F32.val 0) (F32.val 1) = F32.val q := by
          simp [F32.clamp, F32.lt, F32.gt, h0, h1]
        rw [hc]
        constructor
        · simp only [F32.le, F32.lt, F32.ieeeEq, Bool.or_eq_true, decide_eq_true_eq]
          rcases eq_or_lt_of_le (not_lt.mp h0) with he | hlt
          · exact Or.inr he
          · exact Or.inl hlt
        · simp only [F32.le, F32.lt, F32.ieeeEq, Bool.or_eq_true, decide_eq_true_eq]
          rcases eq_or_lt_of_le (not_lt.mp h1) with he | hlt
          · exact Or.inr he
          · exact Or.inl hlt
  · exact ⟨by decide, by decide⟩

/-- A mutation is NaN-free when any score it registers is not NaN. -/
def RegistryOp.nanFree : RegistryOp → Prop
  | RegistryOp.register _ _ _ hs _ => hs ≠ F32.nan
  | _ => True

/-- Claim C6 counterexample: `f32::clamp` propagates NaN, so registering
with `health_score = NaN` stores NaN — and `0 ≤ NaN` is false under IEEE
comparison, violating the claimed range invariant for that input. -/
theorem register_nan_escapes_range :
    applyRegistryOps [] [RegistryOp.register "p" [] none F32.nan 7]
        = [("p", ⟨"p", [], none, 7, F32.nan⟩)] ∧
    F32.le (F32.val 0) F32.nan = false := by
  exact ⟨rfl, rfl⟩

/-- The range invariant `0 ≤ health_score ≤ 1` is preserved by every
Relay Directory mutation whose registered scores are not NaN. -/
theorem registry_health_inv_preserved (ops : List RegistryOp) :
    (∀ op ∈ ops, RegistryOp.nanFree op) →
    ∀ (m : List (String × RelayInfo)),
      (∀ p ∈ m, F32.le (F32.val 0) p.2.health_score = true ∧
        F32.le p.2.health_score (F32.val 1) = true) →
      ∀ p ∈ applyRegistryOps m ops,
        F32.le (F32.val 0) p.2.health_score = true ∧
        F32.le p.2.health_score (F32.val 1) = true := by
  induction ops with
  | nil =>
    intro _ m hm p hp
    exact hm p hp
  | cons op rest ih =>
    intro hnn m hm p hp
    have hstep : ∀ q ∈ applyRegistryOp m op,
        F32.le (F32.val 0) q.2.health_score = true ∧
        F32.le q.2.health_score (F32.val 1) = true := by
      cases op with
      | register pid addrs al hs now =>
        intro q hq
        rcases AssocMap.mem_insert hq with h | h
        · have hhs : hs ≠ F32.nan := hnn _ (List.mem_cons_self _ _)
          rw [h]
          exact clamp01_of_ne_nan hs hhs
        · exact hm q h
      | remove pid =>
        intro q hq
        simp only [applyRegistryOp, RelayRegistry.remove] at hq
        exact hm q (List.mem_filter.mp hq).1
      | prune_stale now maxAge =>
        intro q hq
        simp only [applyRegistryOp, RelayRegistry.prune_stale] at hq
        exact hm q (List.mem_filter.mp hq).1
      | clear =>
        intro q hq
        cases hq
    have hp' : p ∈ applyRegistryOps (applyRegistryOp m op) rest := by
      simpa [applyRegistryOps] using hp
    exact ih (fun o ho => hnn o (List.mem_cons_of_mem _ ho)) _ hstep p hp'

/-- Claim C6 (amended): `register` stores `health_score.clamp(0.0, 1.0)`,
so `register(..., 1.5)` stores `1.0` and `register(..., -0.2)` stores
`0.0`; and after any sequence of Relay Directory mutations in which no
`register` passes a NaN score, every stored entry satisfies
`0 ≤ health_score ≤ 1` under IEEE comparison. -/
theorem clamp_of_high : F32.clamp (F32.val (3 / 2)) (F32.val 0) (F32.val 1) = F32.val 1 := by
  norm_num [F32.clamp, F32.gt, F32.lt]

theorem clamp_of_low : F32.clamp (F32.val (-1 / 5)) (F32.val 0) (F32.val 1) = F32.val 0 := by
  norm_num [F32.clamp, F32.gt, F32.lt]

theorem clamp_of_mid : F32.clamp (F32.val (1 / 2)) (F32.val 0) (F32.val 1) = F32.val (1 / 2) := by
  norm_num [F32.clamp, F32.gt, F32.lt]

theorem relay_health_clamped (ops : List RegistryOp)
    (hnn : ∀ op ∈ ops, RegistryOp.nanFree op) :
    RelayRegistry.register "p" [] none (F32.val (3 / 2)) 7 []
        = [("p", ⟨"p", [], none, 7, F32.val 1⟩)] ∧
    RelayRegistry.register "p" [] none (F32.val (-1 / 5)) 7 []
        = [("p", ⟨"p", [], none, 7, F32.val 0⟩)] ∧
    ∀ p ∈ applyRegistryOps [] ops,
      F32.le (F32.val 0) p.2.health_score = true ∧
      F32.le p.2.health_score (F32.val 1) = true := by
  refine ⟨?_, ?_, ?_⟩
  · simp [RelayRegistry.register, AssocMap.insert, clamp_of_high]
  · simp [RelayRegistry.register, AssocMap.insert, clamp_of_low]
  · exact registry_health_inv_preserved ops hnn [] (by intro p hp; cases hp)

/-- Witness for claim C6 (amended): one registration with score `1/2`. -/
theorem relay_health_clamped_witness :
    RelayRegistry.register "p" [] none (F32.val (3 / 2)) 7 []
        = [("p", ⟨"p", [], none, 7, F32.val 1⟩)] ∧
    F32.le (F32.val 0)
        (⟨"w", [], none, 3, F32.val (1 / 2)⟩ : RelayInfo).health_score = true ∧
    F32.le (⟨"w", [], none, 3, F32.val (1 / 2)⟩ : RelayInfo).health_score
        (F32.val 1) = true := by
  have h := relay_health_clamped [RegistryOp.register "w" [] none (F32.val (1 / 2)) 3]
    (by
      intro op hop
      rw [List.mem_singleton.mp hop]
      exact fun hn => by cases hn)
  have hmem : ("w", (⟨"w", [], none, 3, F32.val (1 / 2)⟩ : RelayInfo)) ∈
      applyRegistryOps [] [RegistryOp.register "w" [] none (F32.val (1 / 2)) 3] := by
    simp only [applyRegistryOps, List.foldl_cons, List.foldl_nil, applyRegistryOp,
      RelayRegistry.register, AssocMap.insert, clamp_of_mid, List.any_nil,
      Bool.false_eq_true, if_false, List.nil_append]
    exact List.mem_singleton_self _
  refine ⟨h.1, ?_, ?_⟩
  · exact (h.2.2 ("w", ⟨"w", [], none, 3, F32.val (1 / 2)⟩) hmem).1
  · exact (h.2.2 ("w", ⟨"w", [], none, 3, F32.val (1 / 2)⟩) hmem).2

/-- IEEE `<` is asymmetric. -/
theorem F32.lt_asymm2 (x y : F32) (h : F32.lt x y = true) : F32.lt y x = false := by
  cases x <;> cases y <;> simp_all [F32.lt]
  linarith

/-- IEEE `<` is transitive. -/
theorem F32.lt_trans2 (x y z : F32) (h1 : F32.lt x y = true) (h2 : F32.lt y z = true) :
    F32.lt x z = true := by
  cases x <;> cases y <;> cases z <;> simp_all [F32.lt]
  linarith

/-- On non-NaN values, IEEE `<` is connex: not below means above or equal. -/
theorem F32.lt_connex (x y : F32) (hx : x ≠ F32.nan) (hy : y ≠ F32.nan)
    (h : F32.lt x y = false) : F32.lt y x = true ∨ x = y := by
  cases x <;> cases y <;> simp_all [F32.lt]
  rcases lt_or_eq_of_le h with hlt | heq
  · exact Or.inl hlt
  · exact Or.inr heq.symm

/-- The sort comparator, restated through IEEE `<` on the scores: `a`
sorts no later than `b` unless `a`'s score is strictly below `b`'s. -/
theorem relayLE_eq_not_lt (a b : RelayInfo) :
    RelayRegistry.relayLE a b = !F32.lt a.health_score b.health_score := by
  unfold RelayRegistry.relayLE RelayRegistry.relayCmp
  rcases ha : a.health_score with _ | _ | q | _ <;>
    rcases hb : b.health_score with _ | _ | r | _ <;>
      simp [F32.cmp, F32.lt] <;> try rfl
  by_cases hrq : r < q <;> by_cases hqr : q < r
  · exact absurd hqr (lt_asymm hrq)
  · simp [hrq, hqr] <;> decide
  · simp [hrq, hqr] <;> decide
  · simp [hrq, hqr] <;> decide

/-- The comparator is total. -/
theorem relayLE_total (a b : RelayInfo) :
    (RelayRegistry.relayLE a b || RelayRegistry.relayLE b a) = true := by
  rw [relayLE_eq_not_lt, relayLE_eq_not_lt]
  cases h : F32.lt a.health_score b.health_score
  · simp
  · simp [F32.lt_asymm2 _ _ h]

/-- The comparator is transitive across relays with non-NaN scores. -/
theorem relayLE_trans_of_ne_nan (a b c : RelayInfo)
    (ha : a.health_score ≠ F32.nan) (hb : b.health_score ≠ F32.nan)
    (hc : c.health_score ≠ F32.nan)
    (h1 : RelayRegistry.relayLE a b = true) (h2 : RelayRegistry.relayLE b c = true) :
    RelayRegistry.relayLE a c = true := by
  rw [relayLE_eq_not_lt] at h1 h2 ⊢
  simp only [Bool.not_eq_true'] at h1 h2 ⊢
  by_contra hac
  have hac' : F32.lt a.health_score c.health_score = true := by
    cases h : F32.lt a.health_score c.health_score
    · exact absurd h hac
    · rfl
  rcases F32.lt_connex _ _ ha hb h1 with hba | hab
  · have : F32.lt b.health_score c.health_score = true := F32.lt_trans2 _ _ _ hba hac'
    rw [this] at h2
    cases h2
  · rw [hab] at hac'
    rw [hac'] at h2
    cases h2

/-- Claim C7 counterexample: two relays with tied health scores.  Both
iteration orders of the same two-entry map are permutations of each other,
yet `list` returns them in whichever order the map's (unspecified)
iteration produced — so tied entries are *not* returned in a
registration-determined stable order. -/
theorem list_tie_order_unspecified :
    ([(⟨"p1", [], none, 0, F32.val 1⟩ : RelayInfo), ⟨"p2", [], none, 0, F32.val 1⟩].Perm
        [(⟨"p2", [], none, 0, F32.val 1⟩ : RelayInfo), ⟨"p1", [], none, 0, F32.val 1⟩]) ∧
    RelayRegistry.list [(⟨"p1", [], none, 0, F32.val 1⟩ : RelayInfo), ⟨"p2", [], none, 0, F32.val 1⟩]
        = [(⟨"p1", [], none, 0, F32.val 1⟩ : RelayInfo), ⟨"p2", [], none, 0, F32.val 1⟩] ∧
    RelayRegistry.list [(⟨"p2", [], none, 0, F32.val 1⟩ : RelayInfo), ⟨"p1", [], none, 0, F32.val 1⟩]
        = [(⟨"p2", [], none, 0, F32.val 1⟩ : RelayInfo), ⟨"p1", [], none, 0, F32.val 1⟩] ∧
    RelayRegistry.list [(⟨"p1", [], none, 0, F32.val 1⟩ : RelayInfo), ⟨"p2", [], none, 0, F32.val 1⟩]
        ≠ RelayRegistry.list [(⟨"p2", [], none, 0, F32.val 1⟩ : RelayInfo), ⟨"p1", [], none, 0, F32.val 1⟩] := by
  have hle : ∀ x y : RelayInfo, x.health_score = F32.val 1 → y.health_score = F32.val 1 →
      RelayRegistry.relayLE x y = true := by
    intro x y hx hy
    rw [relayLE_eq_not_lt, hx, hy]
    rfl
  have h12 : RelayRegistry.list
      [(⟨"p1", [], none, 0, F32.val 1⟩ : RelayInfo), ⟨"p2", [], none, 0, F32.val 1⟩]
      = [(⟨"p1", [], none, 0, F32.val 1⟩ : RelayInfo), ⟨"p2", [], none, 0, F32.val 1⟩] := by
    refine List.mergeSort_of_sorted ?_
    refine List.pairwise_cons.mpr ⟨?_, List.pairwise_singleton _ _⟩
    intro y hy
    rw [List.mem_singleton.mp hy]
    exact hle _ _ rfl rfl
  have h21 : RelayRegistry.list
      [(⟨"p2", [], none, 0, F32.val 1⟩ : RelayInfo), ⟨"p1", [], none, 0, F32.val 1⟩]
      = [(⟨"p2", [], none, 0, F32.val 1⟩ : RelayInfo), ⟨"p1", [], none, 0, F32.val 1⟩] := by
    refine List.mergeSort_of_sorted ?_
    refine List.pairwise_cons.mpr ⟨?_, List.pairwise_singleton _ _⟩
    intro y hy
    rw [List.mem_singleton.mp hy]
    exact hle _ _ rfl rfl
  refine ⟨List.Perm.swap _ _ _, h12, h21, ?_⟩
  rw [h12, h21]
  intro h
  have := List.head_eq_of_cons_eq h
  simp [RelayInfo.mk.injEq] at this

/-- Claim C7 (amended): `list()` stable-sorts the map's value-iteration
sequence by `health_score` descending.  For any iteration sequence with
non-NaN scores: the result is a permutation of the sequence, it is sorted
non-ascending under the comparator, and tied (or incomparable) entries
preserve the *iteration sequence's* relative order — which for a `HashMap`
is unspecified, so the tie order is not determined by registration
history (see the counterexample). -/
theorem list_stable_sort_of_iteration (iter : List RelayInfo)
    (hnn : ∀ r ∈ iter, r.health_score ≠ F32.nan) :
    (RelayRegistry.list iter).Perm iter ∧
    List.Pairwise (fun a b => RelayRegistry.relayLE a b = true) (RelayRegistry.list iter) ∧
    (∀ a b : RelayInfo, RelayRegistry.relayLE a b = true → List.Sublist [a, b] iter →
      List.Sublist [a, b] (RelayRegistry.list iter)) := by
  have htrans : ∀ x y z : {r // r ∈ iter},
      (fun u v : {r // r ∈ iter} => RelayRegistry.relayLE u.1 v.1) x y = true →
      (fun u v : {r // r ∈ iter} => RelayRegistry.relayLE u.1 v.1) y z = true →
      (fun u v : {r // r ∈ iter} => RelayRegistry.relayLE u.1 v.1) x z = true :=
    fun x y z h1 h2 =>
      relayLE_trans_of_ne_nan _ _ _ (hnn _ x.2) (hnn _ y.2) (hnn _ z.2) h1 h2
  have htotal : ∀ x y : {r // r ∈ iter},
      ((fun u v : {r // r ∈ iter} => RelayRegistry.relayLE u.1 v.1) x y ||
        (fun u v : {r // r ∈ iter} => RelayRegistry.relayLE u.1 v.1) y x) = true :=
    fun x y => relayLE_total x.1 y.1
  have hmap : (iter.attach.mergeSort
        (fun u v : {r // r ∈ iter} => RelayRegistry.relayLE u.1 v.1)).map Subtype.val
      = iter.mergeSort RelayRegistry.relayLE := by
    have h := List.map_mergeSort (r := fun u v : {r // r ∈ iter} => RelayRegistry.relayLE u.1 v.1)
      (s := RelayRegistry.relayLE) (f := Subtype.val) (l := iter.attach)
      (fun a _ b _ => rfl)
    rw [h, List.attach_map_subtype_val]
  refine ⟨List.mergeSort_perm iter RelayRegistry.relayLE, ?_, ?_⟩
  · have hp := List.sorted_mergeSort htrans htotal iter.attach
    have hp2 : List.Pairwise (fun a b : RelayInfo => RelayRegistry.relayLE a b = true)
        ((iter.attach.mergeSort
          (fun u v : {r // r ∈ iter} => RelayRegistry.relayLE u.1 v.1)).map Subtype.val) :=
      (List.pairwise_map).mpr hp
    rw [hmap] at hp2
    exact hp2
  · intro a b hab hsub
    have hsub' : List.Sublist [a, b] (iter.attach.map Subtype.val) := by
      rw [List.attach_map_subtype_val]
      exact hsub
    obtain ⟨l', hl', he⟩ := List.sublist_map_iff.mp hsub'
    rcases l' with _ | ⟨x, _ | ⟨y, _ | ⟨z, t⟩⟩⟩
    · exact absurd he (by simp)
    · exact absurd he (by simp)
    · have hab2 : a = x.1 ∧ b = y.1 := by simpa using he
      obtain ⟨ha2, hb2⟩ := hab2
      subst ha2
      subst hb2
      have pw : List.Pairwise (fun u v : {r // r ∈ iter} =>
          RelayRegistry.relayLE u.1 v.1 = true) [x, y] := by
        refine List.pairwise_cons.mpr ⟨?_, List.pairwise_singleton _ _⟩
        intro v hv
        rw [List.mem_singleton.mp hv]
        exact hab
      have hs := List.sublist_mergeSort htrans htotal pw hl'
      have hs2 := hs.map Subtype.val
      rw [hmap] at hs2
      exact hs2
    · exact absurd he (by simp)

/-- Witness for claim C7 (amended): a two-relay iteration sequence with
distinct non-NaN scores. -/
theorem list_stable_sort_of_iteration_witness :
    ((RelayRegistry.list [(⟨"p1", [], none, 0, F32.val 1⟩ : RelayInfo),
        ⟨"p2", [], none, 5, F32.val (1 / 2)⟩]).Perm
      [(⟨"p1", [], none, 0, F32.val 1⟩ : RelayInfo), ⟨"p2", [], none, 5, F32.val (1 / 2)⟩]) ∧
    List.Pairwise (fun a b => RelayRegistry.relayLE a b = true)
      (RelayRegistry.list [(⟨"p1", [], none, 0, F32.val 1⟩ : RelayInfo),
        ⟨"p2", [], none, 5, F32.val (1 / 2)⟩]) ∧
    List.Sublist
      [(⟨"p1", [], none, 0, F32.val 1⟩ : RelayInfo), ⟨"p2", [], none, 5, F32.val (1 / 2)⟩]
      (RelayRegistry.list [(⟨"p1", [], none, 0, F32.val 1⟩ : RelayInfo),
        ⟨"p2", [], none, 5, F32.val (1 / 2)⟩]) := by
  have h := list_stable_sort_of_iteration
    [(⟨"p1", [], none, 0, F32.val 1⟩ : RelayInfo), ⟨"p2", [], none, 5, F32.val (1 / 2)⟩]
    (by
      intro r hr
      rcases List.mem_cons.mp hr with h1 | h1
      · subst h1
        simp
      · rw [List.mem_singleton.mp h1]
        simp)
  refine ⟨h.1, h.2.1, ?_⟩
  refine h.2.2 _ _ ?_ (List.Sublist.refl _)
  rw [relayLE_eq_not_lt]
  norm_num [F32.lt]

/-- Claim C1: when the content hash is absent from the Content Store
throughout the invocation, `download_with_retries` performs exactly 3
attempts (numbered 1, 2, 3), emits snapshots with statuses
`[Retrying, Retrying, Failed]` (so the last status is `Failed`), returns
an error, and changes the metrics by `total_failures += 1` and
`total_retries += 2`, leaving `total_success` unchanged.  (The `+= `
increments are the saturating adds of the source, so the counters are
assumed below the `u64` bound.) -/
theorem download_absent_three_failures (file_hash : String)
    (store : String → Option (String × List Nat)) (writeErr : Nat → Option String)
    (clock : Nat → Nat × Nat) (m : DownloadMetrics)
    (habs : store file_hash = none)
    (hf : m.total_failures + 1 ≤ U64MAX) (hr : m.total_retries + 2 ≤ U64MAX) :
    (FileTransferService.download_with_retries file_hash store writeErr clock m).1
        = Except.error "File not found locally" ∧
    ((FileTransferService.download_with_retries file_hash store writeErr clock m).2.1.map
        DownloadAttemptSnapshot.attempt) = [1, 2, 3] ∧
    ((FileTransferService.download_with_retries file_hash store writeErr clock m).2.1.map
        DownloadAttemptSnapshot.status)
        = [AttemptStatus.retrying, AttemptStatus.retrying, AttemptStatus.failed] ∧
    (FileTransferService.download_with_retries file_hash store writeErr clock m).2.2.total_failures
        = m.total_failures + 1 ∧
    (FileTransferService.download_with_retries file_hash store writeErr clock m).2.2.total_retries
        = m.total_retries + 2 ∧
    (FileTransferService.download_with_retries file_hash store writeErr clock m).2.2.total_success
        = m.total_success := by
  have hh : ∀ w, FileTransferService.handle_download_file file_hash store writeErr w
      = (Except.error "File not found locally", w) := by
    intro w
    unfold FileTransferService.handle_download_file
    rw [habs]
  simp only [FileTransferService.download_with_retries, MAX_DOWNLOAD_ATTEMPTS,
    FileTransferService.download_go, hh, DownloadMetrics.record_attempt]
  norm_num [satAdd]
  omega

/-- Witness for claim C1: an empty store, fresh metrics. -/
theorem download_absent_three_failures_witness :
    (FileTransferService.download_with_retries "missing-hash" (fun _ => none) (fun _ => none)
        (fun _ => (0, 0)) DownloadMetrics.default).1
        = Except.error "File not found locally" ∧
    ((FileTransferService.download_with_retries "missing-hash" (fun _ => none) (fun _ => none)
        (fun _ => (0, 0)) DownloadMetrics.default).2.1.map
        DownloadAttemptSnapshot.attempt) = [1, 2, 3] ∧
    ((FileTransferService.download_with_retries "missing-hash" (fun _ => none) (fun _ => none)
        (fun _ => (0, 0)) DownloadMetrics.default).2.1.map
        DownloadAttemptSnapshot.status)
        = [AttemptStatus.retrying, AttemptStatus.retrying, AttemptStatus.failed] ∧
    (FileTransferService.download_with_retries "missing-hash" (fun _ => none) (fun _ => none)
        (fun _ => (0, 0)) DownloadMetrics.default).2.2.total_failures
        = DownloadMetrics.default.total_failures + 1 ∧
    (FileTransferService.download_with_retries "missing-hash" (fun _ => none) (fun _ => none)
        (fun _ => (0, 0)) DownloadMetrics.default).2.2.total_retries
        = DownloadMetrics.default.total_retries + 2 ∧
    (FileTransferService.download_with_retries "missing-hash" (fun _ => none) (fun _ => none)
        (fun _ => (0, 0)) DownloadMetrics.default).2.2.total_success
        = DownloadMetrics.default.total_success :=
  download_absent_three_failures "missing-hash" (fun _ => none) (fun _ => none)
    (fun _ => (0, 0)) DownloadMetrics.default rfl
    (by norm_num [DownloadMetrics.default, U64MAX])
    (by norm_num [DownloadMetrics.default, U64MAX])

/-- Claim C3: when the content is present and the destination write fails
on the first two attempts and succeeds on the third,
`download_with_retries` performs exactly 3 attempts (numbered 1, 2, 3),
emits snapshots with statuses `[Retrying, Retrying, Success]` in emission
order, returns success, and changes the metrics by `total_retries += 2`
and `total_success += 1` (saturating adds, so the counters are assumed
below the `u64` bound). -/
theorem download_write_fails_twice_then_succeeds (file_hash : String) (nd : String × List Nat)
    (store : String → Option (String × List Nat)) (writeErr : Nat → Option String)
    (clock : Nat → Nat × Nat) (m : DownloadMetrics) (e1 e2 : String)
    (hstore : store file_hash = some nd)
    (hw0 : writeErr 0 = some e1) (hw1 : writeErr 1 = some e2) (hw2 : writeErr 2 = none)
    (hr : m.total_retries + 2 ≤ U64MAX) (hs : m.total_success + 1 ≤ U64MAX) :
    (FileTransferService.download_with_retries file_hash store writeErr clock m).1
        = Except.ok () ∧
    ((FileTransferService.download_with_retries file_hash store writeErr clock m).2.1.map
        DownloadAttemptSnapshot.attempt) = [1, 2, 3] ∧
    ((FileTransferService.download_with_retries file_hash store writeErr clock m).2.1.map
        DownloadAttemptSnapshot.status)
        = [AttemptStatus.retrying, AttemptStatus.retrying, AttemptStatus.success] ∧
    (FileTransferService.download_with_retries file_hash store writeErr clock m).2.2.total_retries
        = m.total_retries + 2 ∧
    (FileTransferService.download_with_retries file_hash store writeErr clock m).2.2.total_success
        = m.total_success + 1 := by
  have hh0 : FileTransferService.handle_download_file file_hash store writeErr 0
      = (Except.error e1, 1) := by
    unfold FileTransferService.handle_download_file
    rw [hstore, hw0]
  have hh1 : FileTransferService.handle_download_file file_hash store writeErr 1
      = (Except.error e2, 2) := by
    unfold FileTransferService.handle_download_file
    rw [hstore, hw1]
  have hh2 : FileTransferService.handle_download_file file_hash store writeErr 2
      = (Except.ok (), 3) := by
    unfold FileTransferService.handle_download_file
    rw [hstore, hw2]
  simp only [FileTransferService.download_with_retries, MAX_DOWNLOAD_ATTEMPTS,
    FileTransferService.download_go, hh0, hh1, hh2, DownloadMetrics.record_attempt]
  norm_num [satAdd]
  omega

/-- Witness for claim C3: the stored file `"test-hash"`, a write oracle
that fails twice then succeeds, fresh metrics. -/
theorem download_write_fails_twice_then_succeeds_witness :
    (FileTransferService.download_with_retries "test-hash"
        (fun h => if h = "test-hash" then some ("example.txt", [104, 105]) else none)
        (fun n => if n < 2 then some "simulated write failure" else none)
        (fun _ => (0, 0)) DownloadMetrics.default).1 = Except.ok () ∧
    ((FileTransferService.download_with_retries "test-hash"
        (fun h => if h = "test-hash" then some ("example.txt", [104, 105]) else none)
        (fun n => if n < 2 then some "simulated write failure" else none)
        (fun _ => (0, 0)) DownloadMetrics.default).2.1.map
        DownloadAttemptSnapshot.attempt) = [1, 2, 3] ∧
    ((FileTransferService.download_with_retries "test-hash"
        (fun h => if h = "test-hash" then some ("example.txt", [104, 105]) else none)
        (fun n => if n < 2 then some "simulated write failure" else none)
        (fun _ => (0, 0)) DownloadMetrics.default).2.1.map
        DownloadAttemptSnapshot.status)
        = [AttemptStatus.retrying, AttemptStatus.retrying, AttemptStatus.success] ∧
    (FileTransferService.download_with_retries "test-hash"
        (fun h => if h = "test-hash" then some ("example.txt", [104, 105]) else none)
        (fun n => if n < 2 then some "simulated write failure" else none)
        (fun _ => (0, 0)) DownloadMetrics.default).2.2.total_retries
        = DownloadMetrics.default.total_retries + 2 ∧
    (FileTransferService.download_with_retries "test-hash"
        (fun h => if h = "test-hash" then some ("example.txt", [104, 105]) else none)
        (fun n => if n < 2 then some "simulated write failure" else none)
        (fun _ => (0, 0)) DownloadMetrics.default).2.2.total_success
        = DownloadMetrics.default.total_success + 1 :=
  download_write_fails_twice_then_succeeds "test-hash" ("example.txt", [104, 105])
    (fun h => if h = "test-hash" then some ("example.txt", [104, 105]) else none)
    (fun n => if n < 2 then some "simulated write failure" else none)
    (fun _ => (0, 0)) DownloadMetrics.default "simulated write failure" "simulated write failure"
    (by norm_num) (by norm_num) (by norm_num) (by norm_num)
    (by norm_num [DownloadMetrics.default, U64MAX])
    (by norm_num [DownloadMetrics.default, U64MAX])

/-- Claim C9: when all three attempts of an invocation fail (with error
messages `e1`, `e2`, `e3` in attempt order), `download_with_retries`
returns an error carrying exactly the last attempt's message `e3` — not an
aggregate of the earlier messages. -/
theorem download_returns_last_error (file_hash : String)
    (store : String → Option (String × List Nat)) (writeErr : Nat → Option String)
    (clock : Nat → Nat × Nat) (m : DownloadMetrics)
    (e1 e2 e3 : String) (w1 w2 w3 : Nat)
    (h1 : FileTransferService.handle_download_file file_hash store writeErr 0
        = (Except.error e1, w1))
    (h2 : FileTransferService.handle_download_file file_hash store writeErr w1
        = (Except.error e2, w2))
    (h3 : FileTransferService.handle_download_file file_hash store writeErr w2
        = (Except.error e3, w3)) :
    (FileTransferService.download_with_retries file_hash store writeErr clock m).1
        = Except.error e3 := by
  simp only [FileTransferService.download_with_retries, MAX_DOWNLOAD_ATTEMPTS,
    FileTransferService.download_go, h1, h2, h3]
  norm_num

/-- Witness for claim C9: all three attempts miss the store, and the
returned error is the third attempt's message. -/
theorem download_returns_last_error_witness :
    (FileTransferService.download_with_retries "h" (fun _ => none) (fun _ => none)
        (fun _ => (0, 0)) DownloadMetrics.default).1
        = Except.error "File not found locally" :=
  download_returns_last_error "h" (fun _ => none) (fun _ => none) (fun _ => (0, 0))
    DownloadMetrics.default "File not found locally" "File not found locally"
    "File not found locally" 0 0 0 rfl rfl rfl
